import Mathlib

/-!
Shallow embedding of the apple-health-collector data pipeline.

Sources embedded:
- `src/src/app/api/health-data/route.ts` and `src/unnamed/part_000`:
  the HTTP route module (POST append, GET read, and the test-data
  generator `gen`/`generateTestData`).
- `src/unnamed/part_001`: the `HealthDashboard` component — the window
  filter (`filteredData`), the series builder (`chartData`), the summary
  aggregator (`getMetricInfo`, `getMinMaxValues`, `isDataEmpty`) and the
  rendered summary cards.

Modelling conventions:
- JavaScript numbers are modelled as `Option ℚ`, with `none` standing for
  `NaN`.  The claims do not depend on binary floating-point precision, so
  exact rationals are used for arithmetic; `Math.round` and `toFixed`
  round half toward positive infinity, as both ECMAScript operations do
  on the positive values arising here.
- Instants (`Date` values) are integers: milliseconds since the Unix
  epoch.  The model uses a single zero-offset timezone: both
  date-fns `parse(s, "yyyy-MM-dd", ...)` and `new Date("yyyy-MM-dd")`
  map a calendar date to the midnight instant of that date.  All
  comparisons in the source compare values produced by the same parse
  route, so a uniform offset is sound.
- Calendar arithmetic (`subMonths` of date-fns, the `setDate` /
  `setFullYear` mutators of JS `Date`, `toISOString` date extraction)
  is embedded through the standard civil-calendar conversions between
  (year, month, day) triples and day numbers.
- String parsing (`parseInt`, `parseFloat`, the "yyyy-MM-dd" date
  format) is embedded over `List Char`.  `parseFloat` is modelled
  without the exponent form, which no datum of this app carries.
- Fallible JS computations (a thrown `RangeError` from date-fns
  `format` on an invalid date) are returned as `Option.none`.
-/

/-! ## Civil calendar arithmetic -/

/-- A (possibly denormalised) civil year–month–day triple. -/
structure Ymd where
  y : ℤ
  m : ℤ
  d : ℤ
deriving DecidableEq, Repr

/-- Proleptic-Gregorian leap-year test. -/
def isLeap (y : ℤ) : Bool :=
  y % 4 = 0 && (y % 100 ≠ 0 || y % 400 = 0)

/-- Number of days in a civil month. -/
def daysInMonth (y m : ℤ) : ℤ :=
  if m = 2 then (if isLeap y then 29 else 28)
  else if m = 4 ∨ m = 6 ∨ m = 9 ∨ m = 11 then 30
  else 31

/-- Day number (days since 1970-01-01) of a civil triple.  The standard
civil-from-days formula; being linear in `d`, it also realises the
ECMAScript `MakeDay` overflow semantics (e.g. February 29 of a non-leap
year denotes March 1). -/
def daysFromCivil (y m d : ℤ) : ℤ :=
  let y2 := if m ≤ 2 then y - 1 else y
  let era := y2.fdiv 400
  let yoe := y2 - era * 400
  let mp := (m + 9) % 12
  let doy := (153 * mp + 2).fdiv 5 + d - 1
  let doe := yoe * 365 + yoe.fdiv 4 - yoe.fdiv 100 + doy
  era * 146097 + doe - 719468

/-- Civil triple of a day number (inverse of `daysFromCivil` on
normalised triples). -/
def civilFromDays (z : ℤ) : Ymd :=
  let z2 := z + 719468
  let era := z2.fdiv 146097
  let doe := z2 - era * 146097
  let yoe := (doe - doe.fdiv 1460 + doe.fdiv 36524 - doe.fdiv 146096).fdiv 365
  let doy := doe - (365 * yoe + yoe.fdiv 4 - yoe.fdiv 100)
  let mp := (5 * doy + 2).fdiv 153
  let d := doy - (153 * mp + 2).fdiv 5 + 1
  let m := if mp < 10 then mp + 3 else mp - 9
  let y := yoe + era * 400
  ⟨if m ≤ 2 then y + 1 else y, m, d⟩

/-- Milliseconds in one civil day. -/
def dayMs : ℤ := 86400000

/-! ## JavaScript numbers and numeric string parsing -/

/-- A JavaScript number: `none` is `NaN`, `some q` a (finite) value. -/
abbrev JsNum := Option ℚ

/-- Numeric value of a decimal digit character. -/
def digitVal (c : Char) : ℕ := c.toNat - '0'.toNat

/-- Accumulate a decimal digit prefix, returning its value and the rest. -/
def readDigits : List Char → ℕ → ℕ × List Char
  | [], acc => (acc, [])
  | c :: cs, acc =>
      if c.isDigit then readDigits cs (acc * 10 + digitVal c) else (acc, c :: cs)

/-- Longest decimal digit prefix, `none` when the first char is no digit. -/
def readNat (cs : List Char) : Option (ℕ × List Char) :=
  match cs with
  | c :: _ => if c.isDigit then some (readDigits cs 0) else none
  | [] => none

/-- JS whitespace test (the forms relevant to this app's inputs). -/
def isJsWs (c : Char) : Bool := c = ' ' || c = '\t' || c = '\n' || c = '\r'

/-- Split an optional leading sign; `true` means negative. -/
def readSign : List Char → Bool × List Char
  | '-' :: cs => (true, cs)
  | '+' :: cs => (false, cs)
  | cs => (false, cs)

/-- ECMAScript `parseInt(s)` (radix 10): skip whitespace, optional sign,
longest digit prefix; `NaN` when no digit follows. -/
def jsParseInt (s : String) : JsNum :=
  let cs := (s.toList).dropWhile isJsWs
  let (neg, cs2) := readSign cs
  match readNat cs2 with
  | some (n, _) => some (if neg then -(n : ℚ) else (n : ℚ))
  | none => none

/-- Fraction digits after the decimal point: value and digit count. -/
def readFrac : List Char → ℕ × ℕ × List Char
  | [] => (0, 0, [])
  | c :: cs =>
      if c.isDigit then
        let (v, k, rest) := readFrac cs
        (digitVal c * 10 ^ k + v, k + 1, rest)
      else (0, 0, c :: cs)

/-- ECMAScript `parseFloat(s)` restricted to the decimal (non-exponent)
form, which is the only form occurring in this app's data: skip
whitespace, optional sign, digits, optional point and fraction digits;
`NaN` when no digit occurs at all. -/
def jsParseFloat (s : String) : JsNum :=
  let cs := (s.toList).dropWhile isJsWs
  let (neg, cs2) := readSign cs
  let (ipart, ilen, rest) :=
    match readNat cs2 with
    | some (n, r) => (n, (1 : ℕ), r)
    | none => (0, 0, cs2)
  let (fpart, flen, _) :=
    match rest with
    | '.' :: r => readFrac r
    | _ => (0, 0, rest)
  if ilen = 0 ∧ flen = 0 then none
  else
    let v : ℚ := (ipart : ℚ) + (fpart : ℚ) / (10 : ℚ) ^ flen
    some (if neg then -v else v)

/-- `Math.round`: round half toward positive infinity; `NaN` propagates. -/
def jsRound (x : JsNum) : JsNum := x.map (fun q => ((⌊q + 1/2⌋ : ℤ) : ℚ))

/-- `parseFloat(x.toFixed(1))`: value rounded to one decimal place
(half toward positive infinity on the positive values arising here);
`NaN` yields the string `"NaN"`, which `parseFloat` turns back to `NaN`. -/
def jsToFixed1 (x : JsNum) : JsNum := x.map (fun q => ((⌊q * 10 + 1/2⌋ : ℤ) : ℚ) / 10)

/-- JS `+` on numbers: `NaN` propagates. -/
def jsAdd (a b : JsNum) : JsNum :=
  match a, b with
  | some x, some y => some (x + y)
  | _, _ => none

/-- JS `/` on numbers; the divisors in this code are positive counts, so
division by zero (JS `Infinity`) is mapped to `NaN` and never reached. -/
def jsDiv (a b : JsNum) : JsNum :=
  match a, b with
  | some x, some y => if y = 0 then none else some (x / y)
  | _, _ => none

/-- JS `>` against `0`: `NaN > 0` is false. -/
def jsGt0 (a : JsNum) : Bool :=
  match a with
  | some x => 0 < x
  | none => false

/-- `Math.min` of two values: `NaN` propagates. -/
def jsMin2 (a b : JsNum) : JsNum :=
  match a, b with
  | some x, some y => some (if x ≤ y then x else y)
  | _, _ => none

/-- `Math.max` of two values: `NaN` propagates. -/
def jsMax2 (a b : JsNum) : JsNum :=
  match a, b with
  | some x, some y => some (if x ≤ y then y else x)
  | _, _ => none

/-- `Math.min(...values)` on a non-empty spread (the code guards the
empty case with a length check, so the `[]` branch is unreached). -/
def jsMinList : List JsNum → JsNum
  | [] => none
  | x :: xs => xs.foldl jsMin2 x

/-- `Math.max(...values)` on a non-empty spread. -/
def jsMaxList : List JsNum → JsNum
  | [] => none
  | x :: xs => xs.foldl jsMax2 x

/-- `Array.prototype.reduce((sum, val) => sum + val, 0)`. -/
def jsSum (l : List JsNum) : JsNum := l.foldl jsAdd (some 0)

/-! ## Date-string parsing (the canonical `yyyy-MM-dd` form) -/

/-- Parse a date string of the canonical `yyyy-MM-dd` shape used by every
record producer of this app, validating month and day ranges; any other
string yields `none` (date-fns `parse` / `new Date` produce an Invalid
Date for such inputs). -/
def parseDate (s : String) : Option Ymd :=
  match s.toList with
  | [y1, y2, y3, y4, '-', m1, m2, '-', d1, d2] =>
      if y1.isDigit ∧ y2.isDigit ∧ y3.isDigit ∧ y4.isDigit ∧
         m1.isDigit ∧ m2.isDigit ∧ d1.isDigit ∧ d2.isDigit then
        let y : ℤ := (digitVal y1 * 1000 + digitVal y2 * 100 + digitVal y3 * 10 + digitVal y4 : ℕ)
        let m : ℤ := (digitVal m1 * 10 + digitVal m2 : ℕ)
        let d : ℤ := (digitVal d1 * 10 + digitVal d2 : ℕ)
        if 1 ≤ m ∧ m ≤ 12 ∧ 1 ≤ d ∧ d ≤ daysInMonth y m then some ⟨y, m, d⟩
        else none
      else none
  | _ => none

/-! ## Data model and HTTP route module
(`src/src/app/api/health-data/route.ts`, `src/unnamed/part_000`) -/

/-- A raw record as stored and exchanged: a date string and optional
string-typed numeric fields (`interface HealthDataPoint`). -/
structure HealthDataPoint where
  date : String
  steps : Option String := none
  weight : Option String := none
  heartRate : Option String := none
deriving DecidableEq, Repr

/-- `POST` of the route module, at the granularity of an already-decoded
JSON body: read the existing collection (empty when the file does not
exist, `none` storage), push the new point unchanged — no validation of
any field — write the whole collection back, and answer 200.  Returns
the new stored collection and the HTTP status. -/
def routePOST (storage : Option (List HealthDataPoint)) (body : HealthDataPoint) :
    List HealthDataPoint × ℕ :=
  let existingData := storage.getD []
  (existingData ++ [body], 200)

/-- Zero-pad a (non-negative, two-digit-range) component. -/
def pad2 (n : ℤ) : String := if n < 10 then "0" ++ toString n else toString n

/-- `format(date, "yyyy-MM-dd")` / `toISOString().slice(0, 10)`. -/
def formatYmd (c : Ymd) : String :=
  toString c.y ++ "-" ++ pad2 c.m ++ "-" ++ pad2 c.d

/-- `Number.prototype.toFixed(2)` on the positive weights produced by the
generator: decimal string with exactly two fraction digits, rounding
half toward positive infinity. -/
def ratToFixed2 (q : ℚ) : String :=
  let n : ℤ := ⌊q * 100 + 1/2⌋
  let sgn := if n < 0 then "-" else ""
  let a := n.natAbs
  sgn ++ toString (a / 100) ++ "." ++ (if a % 100 < 10 then "0" else "") ++ toString (a % 100)

/-- `generateTestData(startDate, days)` of the route module: for each of
`days` consecutive dates starting at `startDate`, a record with random
steps in [5000, 12000] and a slowly decreasing random weight.  The
`Math.random()` draws are supplied by the oracle `rand` (values in
[0, 1)), two draws per iteration, and the float literal `0.1` is taken
at its exact decimal value. -/
def generateTestData (startDate : Ymd) (days : ℕ) (rand : ℕ → ℚ) :
    List HealthDataPoint :=
  (List.range days).map (fun (i : ℕ) =>
    let dateString := formatYmd (civilFromDays
      (daysFromCivil startDate.y startDate.m startDate.d + (i : ℤ)))
    let steps : ℤ := ⌊rand (2 * i) * (12000 - 5000 + 1)⌋ + 5000
    let weight : ℚ := 75 - (i : ℚ) * (1/10) + rand (2 * i + 1) * 2 - 1
    { date := dateString
      steps := some (toString steps)
      weight := some (ratToFixed2 weight) })

/-- `gen()` of the route module: regenerate 30 days of test data starting
2025-01-02 and write it to the data file, replacing its contents. -/
def gen (rand : ℕ → ℚ) : List HealthDataPoint :=
  generateTestData ⟨2025, 1, 2⟩ 30 rand

/-- Result of the `GET` route: the collection left in storage, the
response body, and the HTTP status. -/
structure GetResult where
  storage : List HealthDataPoint
  body : List HealthDataPoint
  status : ℕ
deriving Repr

/-- `GET` of the route module (`src/unnamed/part_000`): it first calls
`gen()`, which overwrites the data file with freshly generated test
data, then reads that file back and returns its contents with 200.
The prior stored collection is discarded entirely. -/
def routeGET (_storage : Option (List HealthDataPoint)) (rand : ℕ → ℚ) : GetResult :=
  let afterGen := gen rand
  { storage := afterGen, body := afterGen, status := 200 }

/-! ## Dashboard: window filter (`filteredData` of `src/unnamed/part_001`) -/

/-- Instant (epoch ms) of a record's local-midnight date, `none` when the
date string does not parse (date-fns `parse` gives an Invalid Date and
`getTime()` gives `NaN`).  `new Date("yyyy-MM-dd").getTime()` used by
the sort comparator maps the same strings to the same instants in this
single-offset model. -/
def recordMs (r : HealthDataPoint) : Option ℤ :=
  (parseDate r.date).map (fun c => daysFromCivil c.y c.m c.d * dayMs)

/-- date-fns `subMonths(now, n)`: calendar-aware month subtraction with
day-of-month clamping to the target month's length, keeping the
time of day. -/
def subMonthsMs (now : ℤ) (n : ℤ) : ℤ :=
  let msod := now % dayMs
  let c := civilFromDays (now.fdiv dayMs)
  let total := c.y * 12 + (c.m - 1) - n
  let y := total.fdiv 12
  let m := total % 12 + 1
  let d := if c.d ≤ daysInMonth y m then c.d else daysInMonth y m
  daysFromCivil y m d * dayMs + msod

/-- `new Date(now.setFullYear(now.getFullYear() - 1))`: same calendar
position one year earlier, with ECMAScript `MakeDay` overflow (Feb 29
of a leap year becomes Mar 1 of the previous year). -/
def subYearMs (now : ℤ) : ℤ :=
  let msod := now % dayMs
  let c := civilFromDays (now.fdiv dayMs)
  daysFromCivil (c.y - 1) c.m c.d * dayMs + msod

/-- The `cutoffDate` computed by the `switch` in `filteredData`:
`none` for the `default` branch (the unbounded `ALL` selector). -/
def cutoffDate (now : ℤ) (timePeriod : String) : Option ℤ :=
  match timePeriod with
  | "7D" => some (now - 7 * dayMs)
  | "1M" => some (subMonthsMs now 1)
  | "3M" => some (subMonthsMs now 3)
  | "6M" => some (subMonthsMs now 6)
  | "1Y" => some (subYearMs now)
  | _ => none

/-- JS `itemDate >= cutoffDate` on `Date`s: an Invalid Date (`NaN`
timestamp) compares false. -/
def jsDateGE (itemDate : Option ℤ) (cutoff : ℤ) : Bool :=
  match itemDate with
  | some t => cutoff ≤ t
  | none => false

/-- `filteredData` of the dashboard: empty input short-circuits to `[]`;
a bounded selector keeps the records whose parsed date is on or after
the cutoff; the `default` branch returns the collection unfiltered. -/
def filteredData (healthData : List HealthDataPoint) (now : ℤ)
    (timePeriod : String) : List HealthDataPoint :=
  if healthData.length = 0 then []
  else
    match cutoffDate now timePeriod with
    | some c => healthData.filter (fun item => jsDateGE (recordMs item) c)
    | none => healthData

/-! ## Dashboard: series builder (`chartData` of `src/unnamed/part_001`) -/

/-- The three metric tabs. -/
inductive Metric where
  | steps
  | weight
  | heartRate
deriving DecidableEq, Repr

/-- The selected metric's raw string field of a record. -/
def metricField (m : Metric) (r : HealthDataPoint) : Option String :=
  match m with
  | .steps => r.steps
  | .weight => r.weight
  | .heartRate => r.heartRate

/-- `item.steps || "0"`: the JS falsy fallback — an absent field or the
empty string becomes `"0"`. -/
def jsOrZero (o : Option String) : String :=
  match o with
  | none => "0"
  | some s => if s = "" then "0" else s

/-- The numeric parser the dashboard applies to each metric:
`parseInt` for steps, `parseFloat` for weight and heart rate. -/
def metricParse (m : Metric) : String → JsNum :=
  match m with
  | .steps => jsParseInt
  | .weight => jsParseFloat
  | .heartRate => jsParseFloat

/-- The per-record series value, e.g. `parseInt(item.steps || "0")`. -/
def metricValue (m : Metric) (r : HealthDataPoint) : JsNum :=
  metricParse m (jsOrZero (metricField m r))

/-- The sort comparator `new Date(a.date).getTime() - new Date(b.date).getTime()`
as the "belongs no later than" relation the stable sort realises: a
comparison touching an Invalid Date yields `NaN`, which ECMAScript's
`CompareArrayElements` treats as `+0`, i.e. as equality. -/
def sortLE (a b : HealthDataPoint) : Bool :=
  match recordMs a, recordMs b with
  | some x, some y => x ≤ y
  | _, _ => true

/-- Stable insertion into a sorted prefix: the inserted element precedes
the first element it compares no-greater than, so elements comparing
equal keep their original relative order. -/
def sInsert (a : HealthDataPoint) : List HealthDataPoint → List HealthDataPoint
  | [] => [a]
  | b :: l => if sortLE a b then a :: b :: l else b :: sInsert a l

/-- `[...filteredData].sort(comparator)`: ECMAScript `Array.prototype.sort`
is required to be stable, and with the date comparator its result is the
stable sort by date realised here by stable insertion; the spread copies
the array, so the input collection is left untouched (the model is pure). -/
def sortRecords : List HealthDataPoint → List HealthDataPoint
  | [] => []
  | a :: l => sInsert a (sortRecords l)

/-- date-fns `format(date, "MMM d", { locale: zhCN })` on a parsed record
date; on an Invalid Date `format` throws a `RangeError`, modelled as
`none`.  The exact label text is locale data; no claim depends on it. -/
def labelOf (r : HealthDataPoint) : Option String :=
  (parseDate r.date).map (fun c => toString c.m ++ "月" ++ toString c.d)

/-- `sortedData.map(labelOf)` with JS exception semantics: the map
aborts (yields `none`) at the first record whose date does not parse. -/
def labelsOf : List HealthDataPoint → Option (List String)
  | [] => some []
  | r :: l =>
      match labelOf r, labelsOf l with
      | some s, some ls => some (s :: ls)
      | _, _ => none

/-- The chart payload the dashboard derives: the label sequence and the
active tab's value sequence. -/
structure ChartOut where
  labels : List String
  values : List JsNum
deriving DecidableEq, Repr

/-- `chartData` of the dashboard: `null` (modelled `some none`) for an
empty filtered set; otherwise sort a copy, build the labels (a throw on
an invalid date aborts the whole memo: outer `none`), and project the
selected metric with `parseInt`/`parseFloat` over the `|| "0"` fallback. -/
def chartData (filtered : List HealthDataPoint) (m : Metric) :
    Option (Option ChartOut) :=
  if filtered.length = 0 then some none
  else
    let sortedData := sortRecords filtered
    match labelsOf sortedData with
    | none => none
    | some labels => some (some ⟨labels, sortedData.map (metricValue m)⟩)

/-- The chart input after the component's `chartData || { labels: [], datasets: [] }`
substitution: `null` becomes the empty payload, a thrown exception
(outer `none`) still aborts rendering. -/
def dashboardChart (filtered : List HealthDataPoint) (m : Metric) :
    Option ChartOut :=
  (chartData filtered m).map (fun o => o.getD ⟨[], []⟩)

/-! ## Dashboard: summary aggregator
(`getMetricInfo`, `getMinMaxValues`, `isDataEmpty`) -/

/-- The eligible-value list of `getMetricInfo`/`getMinMaxValues`:
`filteredData.map(d => parse(d.metric || "0")).filter(v => v > 0)`. -/
def eligibleValues (m : Metric) (filtered : List HealthDataPoint) : List JsNum :=
  (filtered.map (metricValue m)).filter (fun v => jsGt0 v)

/-- The `average` of `getMetricInfo`: early `0` for an empty filtered
set; steps divide by `length || 1` and `Math.round`; weight divides by
the length when nonzero and goes through `toFixed(1)`/`parseFloat`,
else `0`; heart rate divides by the length when nonzero and rounds,
else `0`. -/
def getMetricInfoAverage (filtered : List HealthDataPoint) (m : Metric) : JsNum :=
  if filtered.length = 0 then some 0
  else
    let values := eligibleValues m filtered
    match m with
    | .steps =>
        jsRound (jsDiv (jsSum values)
          (some (if values.length = 0 then 1 else (values.length : ℚ))))
    | .weight =>
        if values.length ≠ 0 then
          jsToFixed1 (jsDiv (jsSum values) (some (values.length : ℚ)))
        else some 0
    | .heartRate =>
        if values.length ≠ 0 then
          jsRound (jsDiv (jsSum values) (some (values.length : ℚ)))
        else some 0

/-- `getMinMaxValues`: early `(0, 0)` for an empty filtered set; raw
(unrounded) `Math.min`/`Math.max` over the eligible values, `0` when
none are eligible. -/
def getMinMaxValues (filtered : List HealthDataPoint) (m : Metric) : JsNum × JsNum :=
  if filtered.length = 0 then (some 0, some 0)
  else
    let values := eligibleValues m filtered
    (if values.length ≠ 0 then jsMinList values else some 0,
     if values.length ≠ 0 then jsMaxList values else some 0)

/-- `isDataEmpty`: the filtered set is empty, or no record of it has a
strictly positive parsed value of the active metric. -/
def isDataEmpty (filtered : List HealthDataPoint) (m : Metric) : Bool :=
  filtered.length = 0 || !(filtered.any (fun d => jsGt0 (metricValue m d)))

/-- The average summary card as rendered: the explicit no-data indicator
(`"无数据"`, modelled `none`) when `isDataEmpty`, else the computed
average. -/
def displayedAverage (filtered : List HealthDataPoint) (m : Metric) : Option JsNum :=
  if isDataEmpty filtered m then none else some (getMetricInfoAverage filtered m)

/-- The minimum summary card as rendered. -/
def displayedMin (filtered : List HealthDataPoint) (m : Metric) : Option JsNum :=
  if isDataEmpty filtered m then none else some (getMinMaxValues filtered m).1

/-- The maximum summary card as rendered. -/
def displayedMax (filtered : List HealthDataPoint) (m : Metric) : Option JsNum :=
  if isDataEmpty filtered m then none else some (getMinMaxValues filtered m).2

/-- The rational extraction of the eligible values (they are all finite,
as `NaN` fails the `v > 0` filter); used to state mean/min/max claims. -/
def eligibleQ (m : Metric) (filtered : List HealthDataPoint) : List ℚ :=
  (eligibleValues m filtered).reduceOption

/-- The rounding the displayed average applies per metric, as the spec's
rounding policy names it: whole units for steps and heart rate, one
decimal place for weight. -/
def roundPolicy (m : Metric) (q : ℚ) : ℚ :=
  match m with
  | .steps => ((⌊q + 1/2⌋ : ℤ) : ℚ)
  | .weight => ((⌊q * 10 + 1/2⌋ : ℤ) : ℚ) / 10
  | .heartRate => ((⌊q + 1/2⌋ : ℤ) : ℚ)

/-- The sort key of a record with a parseable date (default irrelevant:
it is only used beneath a validity hypothesis). -/
def keyD (r : HealthDataPoint) : ℤ := (recordMs r).getD 0

/-! ## Helper lemmas -/

theorem eligibleValues_mem {m : Metric} {l : List HealthDataPoint} {v : JsNum}
    (hv : v ∈ eligibleValues m l) : ∃ q : ℚ, v = some q ∧ 0 < q := by
  unfold eligibleValues at hv
  have hgt : jsGt0 v = true := List.of_mem_filter hv
  cases v with
  | none => simp [jsGt0] at hgt
  | some q => exact ⟨q, rfl, by simpa [jsGt0] using hgt⟩

theorem jsSum_all_some {l : List JsNum}
    (h : ∀ v ∈ l, ∃ q : ℚ, v = some q) :
    ∀ a : ℚ, l.foldl jsAdd (some a) = some (a + l.reduceOption.sum) := by
  induction l with
  | nil => intro a; simp [List.reduceOption]
  | cons x xs ih =>
      intro a
      obtain ⟨q, rfl⟩ := h x (by simp)
      have := ih (fun v hv => h v (by simp [hv])) (a + q)
      simp only [List.foldl_cons, jsAdd] at this ⊢
      rw [this]
      simp [List.reduceOption, add_assoc]

theorem jsSum_eq {l : List JsNum} (h : ∀ v ∈ l, ∃ q : ℚ, v = some q) :
    jsSum l = some l.reduceOption.sum := by
  unfold jsSum
  rw [jsSum_all_some h 0, zero_add]

theorem reduceOption_length_eq {l : List JsNum}
    (h : ∀ v ∈ l, ∃ q : ℚ, v = some q) :
    l.reduceOption.length = l.length := by
  induction l with
  | nil => simp
  | cons x xs ih =>
      obtain ⟨q, rfl⟩ := h x (by simp)
      have ht := ih (fun v hv => h v (by simp [hv]))
      simp only [List.reduceOption_cons_of_some, List.length_cons, ht]

theorem isDataEmpty_iff (l : List HealthDataPoint) (m : Metric) :
    isDataEmpty l m = true ↔ eligibleValues m l = [] := by
  simp only [isDataEmpty, eligibleValues, Bool.or_eq_true, decide_eq_true_eq,
    Bool.not_eq_true', List.any_eq_false, List.filter_eq_nil_iff, List.length_eq_zero,
    List.mem_map]
  constructor
  · rintro (rfl | h)
    · simp
    · rintro v ⟨x, hx, rfl⟩
      exact h x hx
  · intro h
    right
    intro x hx
    exact h _ ⟨x, hx, rfl⟩

theorem sInsert_perm (a : HealthDataPoint) (l : List HealthDataPoint) :
    (sInsert a l).Perm (a :: l) := by
  induction l with
  | nil => simp [sInsert]
  | cons b t ih =>
      unfold sInsert
      by_cases h : sortLE a b = true
      · simp [h]
      · simp only [h, if_false]
        exact (ih.cons b).trans (List.Perm.swap a b t)

theorem sortRecords_perm (l : List HealthDataPoint) : (sortRecords l).Perm l := by
  induction l with
  | nil => simp [sortRecords]
  | cons a t ih => exact (sInsert_perm a (sortRecords t)).trans (ih.cons a)

theorem sortLE_total {a b : HealthDataPoint} (h : sortLE a b = false) :
    sortLE b a = true := by
  unfold sortLE at h ⊢
  cases ha : recordMs a with
  | none => simp [ha] at h
  | some x =>
      cases hb : recordMs b with
      | none => simp [ha, hb] at h
      | some y =>
          simp only [ha, hb, decide_eq_false_iff_not, not_le] at h
          simp [ha, hb, le_of_lt h]

theorem chain_sInsert {a : HealthDataPoint} {l : List HealthDataPoint}
    (hc : List.Chain' (fun x y => sortLE x y = true) l) :
    List.Chain' (fun x y => sortLE x y = true) (sInsert a l) := by
  induction l with
  | nil => simp [sInsert]
  | cons b t ih =>
      rw [sInsert]
      by_cases h : sortLE a b = true
      · rw [if_pos h, List.chain'_cons]
        exact ⟨h, hc⟩
      · rw [if_neg h]
        have hf : sortLE a b = false := by simpa using h
        have hba : sortLE b a = true := sortLE_total hf
        have hrec := ih hc.tail
        rw [List.chain'_cons']
        refine ⟨?_, hrec⟩
        intro x hx
        cases t with
        | nil =>
            rw [sInsert] at hx
            simp only [List.head?_cons, Option.mem_def, Option.some_inj] at hx
            subst hx
            exact hba
        | cons c u =>
            rw [sInsert] at hx
            by_cases h2 : sortLE a c = true
            · rw [if_pos h2] at hx
              simp only [List.head?_cons, Option.mem_def, Option.some_inj] at hx
              subst hx
              exact hba
            · rw [if_neg h2] at hx
              simp only [List.head?_cons, Option.mem_def, Option.some_inj] at hx
              subst hx
              exact (List.chain'_cons.mp hc).1

theorem chain_sortRecords (l : List HealthDataPoint) :
    List.Chain' (fun x y => sortLE x y = true) (sortRecords l) := by
  induction l with
  | nil => simp [sortRecords]
  | cons a t ih => exact chain_sInsert ih

theorem filter_sInsert (k : ℤ) (a : HealthDataPoint) (l : List HealthDataPoint)
    (hl : ∀ r ∈ l, (recordMs r).isSome) (ha : (recordMs a).isSome) :
    (sInsert a l).filter (fun r => decide (recordMs r = some k)) =
      if recordMs a = some k
      then a :: l.filter (fun r => decide (recordMs r = some k))
      else l.filter (fun r => decide (recordMs r = some k)) := by
  induction l with
  | nil =>
      by_cases h : recordMs a = some k <;> simp [sInsert, h]
  | cons b t ih =>
      have hbs := hl b (by simp)
      have iht := ih (fun r hr => hl r (List.mem_cons_of_mem b hr))
      rw [sInsert]
      by_cases hab : sortLE a b = true
      · rw [if_pos hab]
        by_cases h : recordMs a = some k <;> simp [List.filter_cons, h]
      · rw [if_neg hab]
        have hf : sortLE a b = false := by simpa using hab
        obtain ⟨x, hx⟩ := Option.isSome_iff_exists.mp ha
        obtain ⟨y, hy⟩ := Option.isSome_iff_exists.mp hbs
        have hlt : y < x := by
          unfold sortLE at hf
          rw [hx, hy] at hf
          simpa using hf
        by_cases h : recordMs a = some k
        · have hxk : x = k := by
            rw [hx] at h
            exact Option.some_inj.mp h
          have hbk : ¬ (recordMs b = some k) := by
            rw [hy]
            intro hc
            have hyk : y = k := Option.some_inj.mp hc
            omega
          simp [List.filter_cons, hbk, iht, h]
        · simp [List.filter_cons, iht, h]

theorem sortRecords_stable (l : List HealthDataPoint)
    (hl : ∀ r ∈ l, (recordMs r).isSome) (k : ℤ) :
    (sortRecords l).filter (fun r => decide (recordMs r = some k)) =
      l.filter (fun r => decide (recordMs r = some k)) := by
  induction l with
  | nil => simp [sortRecords]
  | cons a t ih =>
      rw [sortRecords]
      have hs : ∀ r ∈ sortRecords t, (recordMs r).isSome := fun r hr =>
        hl r (List.mem_cons_of_mem a ((sortRecords_perm t).mem_iff.mp hr))
      rw [filter_sInsert k a _ hs (hl a (by simp))]
      have iht := ih (fun r hr => hl r (List.mem_cons_of_mem a hr))
      by_cases h : recordMs a = some k
      · rw [if_pos h, iht, List.filter_cons]
        simp [h]
      · rw [if_neg h, iht, List.filter_cons]
        simp [h]

theorem chain_keyD {l : List HealthDataPoint}
    (hl : ∀ r ∈ l, (recordMs r).isSome)
    (hc : List.Chain' (fun a b => sortLE a b = true) l) :
    List.Chain' (fun a b => keyD a ≤ keyD b) l := by
  induction l with
  | nil => simp
  | cons a t ih =>
      cases t with
      | nil => simp
      | cons b u =>
          rw [List.chain'_cons] at hc ⊢
          refine ⟨?_, ih (fun r hr => hl r (List.mem_cons_of_mem a hr)) hc.2⟩
          obtain ⟨x, hx⟩ := Option.isSome_iff_exists.mp (hl a (by simp))
          obtain ⟨y, hy⟩ := Option.isSome_iff_exists.mp
            (hl b (List.mem_cons_of_mem a (by simp)))
          have h1 := hc.1
          unfold sortLE at h1
          rw [hx, hy] at h1
          unfold keyD
          rw [hx, hy]
          simpa using h1

theorem sortRecords_pairwise (l : List HealthDataPoint)
    (hl : ∀ r ∈ l, (recordMs r).isSome) :
    List.Pairwise (fun a b => keyD a ≤ keyD b) (sortRecords l) := by
  haveI : IsTrans HealthDataPoint (fun a b => keyD a ≤ keyD b) :=
    ⟨fun _ _ _ hab hbc => le_trans hab hbc⟩
  have hs : ∀ r ∈ sortRecords l, (recordMs r).isSome := fun r hr =>
    hl r ((sortRecords_perm l).mem_iff.mp hr)
  exact List.chain'_iff_pairwise.mp (chain_keyD hs (chain_sortRecords l))

theorem labelsOf_isSome {l : List HealthDataPoint}
    (h : ∀ r ∈ l, (parseDate r.date).isSome) :
    ∃ ls, labelsOf l = some ls ∧ ls.length = l.length := by
  induction l with
  | nil => exact ⟨[], rfl, rfl⟩
  | cons r t ih =>
      obtain ⟨c, hc⟩ := Option.isSome_iff_exists.mp (h r (by simp))
      obtain ⟨ls, hls, hlen⟩ := ih (fun x hx => h x (List.mem_cons_of_mem r hx))
      refine ⟨(toString c.m ++ "月" ++ toString c.d) :: ls, ?_, by simp [hlen]⟩
      rw [labelsOf]
      simp [labelOf, hc, hls]

theorem jsParseInt_int {s : String} {q : ℚ} (h : jsParseInt s = some q) :
    ∃ k : ℤ, q = (k : ℚ) := by
  unfold jsParseInt at h
  rcases hsg : readSign ((s.toList).dropWhile isJsWs) with ⟨neg, cs2⟩
  simp only [hsg] at h
  cases hr : readNat cs2 with
  | none =>
      rw [hr] at h
      simp at h
  | some p =>
      rcases p with ⟨n, rest⟩
      rw [hr] at h
      simp only [Option.some_inj] at h
      cases neg with
      | false => exact ⟨(n : ℤ), by simp [← h]⟩
      | true => exact ⟨-(n : ℤ), by simp [← h]⟩

theorem jsMin2_int {a b : JsNum}
    (ha : ∃ k : ℤ, a = some ((k : ℚ))) (hb : ∃ k : ℤ, b = some ((k : ℚ))) :
    ∃ k : ℤ, jsMin2 a b = some ((k : ℚ)) := by
  obtain ⟨x, rfl⟩ := ha
  obtain ⟨y, rfl⟩ := hb
  by_cases hm : (x : ℚ) ≤ (y : ℚ)
  · exact ⟨x, by simp [jsMin2, hm]⟩
  · exact ⟨y, by simp [jsMin2, hm]⟩

theorem jsMax2_int {a b : JsNum}
    (ha : ∃ k : ℤ, a = some ((k : ℚ))) (hb : ∃ k : ℤ, b = some ((k : ℚ))) :
    ∃ k : ℤ, jsMax2 a b = some ((k : ℚ)) := by
  obtain ⟨x, rfl⟩ := ha
  obtain ⟨y, rfl⟩ := hb
  by_cases hm : (x : ℚ) ≤ (y : ℚ)
  · exact ⟨y, by simp [jsMax2, hm]⟩
  · exact ⟨x, by simp [jsMax2, hm]⟩

theorem jsMinList_int {l : List JsNum}
    (hl : ∀ v ∈ l, ∃ k : ℤ, v = some ((k : ℚ))) (hne : l ≠ []) :
    ∃ k : ℤ, jsMinList l = some ((k : ℚ)) := by
  cases l with
  | nil => exact absurd rfl hne
  | cons x xs =>
      rw [jsMinList]
      clear hne
      induction xs generalizing x with
      | nil => exact hl x (by simp)
      | cons y ys ih =>
          rw [List.foldl_cons]
          refine ih (jsMin2 x y) ?_
          intro v hv
          rcases List.mem_cons.mp hv with rfl | h2
          · exact jsMin2_int (hl x (by simp)) (hl y (by simp))
          · exact hl v (List.mem_cons_of_mem x (List.mem_cons_of_mem y h2))

theorem jsMaxList_int {l : List JsNum}
    (hl : ∀ v ∈ l, ∃ k : ℤ, v = some ((k : ℚ))) (hne : l ≠ []) :
    ∃ k : ℤ, jsMaxList l = some ((k : ℚ)) := by
  cases l with
  | nil => exact absurd rfl hne
  | cons x xs =>
      rw [jsMaxList]
      clear hne
      induction xs generalizing x with
      | nil => exact hl x (by simp)
      | cons y ys ih =>
          rw [List.foldl_cons]
          refine ih (jsMax2 x y) ?_
          intro v hv
          rcases List.mem_cons.mp hv with rfl | h2
          · exact jsMax2_int (hl x (by simp)) (hl y (by simp))
          · exact hl v (List.mem_cons_of_mem x (List.mem_cons_of_mem y h2))

theorem eligible_all_some (m : Metric) (l : List HealthDataPoint) :
    ∀ v ∈ eligibleValues m l, ∃ q : ℚ, v = some q :=
  fun _ hv => ((eligibleValues_mem hv).imp (fun _ h => h.1))

theorem eligible_sum (m : Metric) (l : List HealthDataPoint) :
    jsSum (eligibleValues m l) = some (eligibleQ m l).sum :=
  jsSum_eq (eligible_all_some m l)

theorem eligible_length (m : Metric) (l : List HealthDataPoint) :
    (eligibleQ m l).length = (eligibleValues m l).length :=
  reduceOption_length_eq (eligible_all_some m l)

theorem eligible_ne_nil_filtered_ne_nil {m : Metric} {l : List HealthDataPoint}
    (h : eligibleValues m l ≠ []) : l.length ≠ 0 := by
  intro hl
  have : l = [] := List.length_eq_zero.mp hl
  subst this
  exact h rfl

theorem average_eq (l : List HealthDataPoint) (m : Metric)
    (hne : eligibleValues m l ≠ []) :
    getMetricInfoAverage l m =
      some (roundPolicy m
        ((eligibleQ m l).sum / ((eligibleQ m l).length : ℚ))) := by
  have hl : ¬ (l.length = 0) := eligible_ne_nil_filtered_ne_nil hne
  have hlen0 : (eligibleValues m l).length ≠ 0 := by
    intro hc
    exact hne (List.length_eq_zero.mp hc)
  have hlenq : ((eligibleValues m l).length : ℚ) ≠ 0 := by
    exact_mod_cast hlen0
  unfold getMetricInfoAverage
  rw [if_neg hl]
  cases m with
  | steps =>
      simp only [eligible_sum, jsDiv, if_neg hlen0, eligible_length]
      rw [if_neg hlenq]
      simp [jsRound, roundPolicy, eligible_length]
  | weight =>
      simp only [eligible_sum, jsDiv, if_pos hlen0, eligible_length]
      rw [if_neg hlenq]
      simp [jsToFixed1, roundPolicy, eligible_length]
  | heartRate =>
      simp only [eligible_sum, jsDiv, if_pos hlen0, eligible_length]
      rw [if_neg hlenq]
      simp [jsRound, roundPolicy, eligible_length]

theorem filteredData_bounded (l : List HealthDataPoint) (now : ℤ)
    (tp : String) (c : ℤ) (h : cutoffDate now tp = some c) :
    filteredData l now tp = l.filter (fun r => jsDateGE (recordMs r) c) := by
  unfold filteredData
  rw [h]
  by_cases hl : l.length = 0
  · rw [if_pos hl, List.length_eq_zero.mp hl]
    simp
  · rw [if_neg hl]

theorem jsDateGE_iff (o : Option ℤ) (c : ℤ) :
    jsDateGE o c = true ↔ ∃ t, o = some t ∧ c ≤ t := by
  cases o with
  | none => simp [jsDateGE]
  | some t => simp [jsDateGE]

theorem mem_filteredData_iff (l : List HealthDataPoint) (now : ℤ)
    (tp : String) (c : ℤ) (r : HealthDataPoint) (h : cutoffDate now tp = some c) :
    r ∈ filteredData l now tp ↔ r ∈ l ∧ ∃ t, recordMs r = some t ∧ c ≤ t := by
  rw [filteredData_bounded l now tp c h, List.mem_filter, jsDateGE_iff]

theorem filteredData_valid (l : List HealthDataPoint) (now : ℤ)
    (tp : String) (c : ℤ) (h : cutoffDate now tp = some c) :
    ∀ r ∈ filteredData l now tp, (recordMs r).isSome := by
  intro r hr
  obtain ⟨-, t, ht, -⟩ := (mem_filteredData_iff l now tp c r h).mp hr
  rw [ht]
  rfl

theorem recordMs_isSome_iff (r : HealthDataPoint) :
    (recordMs r).isSome = (parseDate r.date).isSome := by
  unfold recordMs
  cases parseDate r.date <;> rfl

theorem chartData_total (l : List HealthDataPoint) (m : Metric)
    (h : ∀ r ∈ l, (parseDate r.date).isSome) :
    ∃ out, dashboardChart l m = some out ∧
      out.labels.length = l.length ∧ out.values.length = l.length := by
  by_cases hl : l.length = 0
  · rw [List.length_eq_zero.mp hl] at *
    exact ⟨⟨[], []⟩, rfl, rfl, rfl⟩
  · have hsorted : ∀ r ∈ sortRecords l, (parseDate r.date).isSome := fun r hr =>
      h r ((sortRecords_perm l).mem_iff.mp hr)
    obtain ⟨ls, hls, hlen⟩ := labelsOf_isSome hsorted
    have hslen : (sortRecords l).length = l.length := (sortRecords_perm l).length_eq
    have hcd : chartData l m = some (some ⟨ls, (sortRecords l).map (metricValue m)⟩) := by
      unfold chartData
      rw [if_neg hl]
      simp only [hls]
    refine ⟨⟨ls, (sortRecords l).map (metricValue m)⟩, ?_, ?_, ?_⟩
    · unfold dashboardChart
      rw [hcd]
      rfl
    · exact hlen.trans hslen
    · simpa using hslen

theorem jsRound_int {x : JsNum} {q : ℚ} (h : jsRound x = some q) :
    ∃ k : ℤ, q = (k : ℚ) := by
  cases x with
  | none => simp [jsRound] at h
  | some p =>
      simp only [jsRound, Option.map_some', Option.some_inj] at h
      exact ⟨⌊p + 1/2⌋, h.symm⟩

theorem jsToFixed1_tenth {x : JsNum} {q : ℚ} (h : jsToFixed1 x = some q) :
    ∃ k : ℤ, q = (k : ℚ) / 10 := by
  cases x with
  | none => simp [jsToFixed1] at h
  | some p =>
      simp only [jsToFixed1, Option.map_some', Option.some_inj] at h
      exact ⟨⌊p * 10 + 1/2⌋, h.symm⟩

theorem eligible_steps_int (l : List HealthDataPoint) :
    ∀ v ∈ eligibleValues .steps l, ∃ k : ℤ, v = some ((k : ℚ)) := by
  intro v hv
  have hvm := List.mem_of_mem_filter hv
  obtain ⟨r, hr, rfl⟩ := List.mem_map.mp hvm
  obtain ⟨q, hq, -⟩ := eligibleValues_mem hv
  obtain ⟨k, hk⟩ := jsParseInt_int
    (show jsParseInt (jsOrZero r.steps) = some q from hq)
  exact ⟨k, by rw [hq, hk]⟩

theorem metricParse_zero (m : Metric) : metricParse m "0" = some 0 := by
  cases m <;>
    simp [metricParse, jsParseInt, jsParseFloat, readSign, readNat, readDigits,
      digitVal, isJsWs, List.dropWhile]

theorem generateTestData_length (s : Ymd) (d : ℕ) (r : ℕ → ℚ) :
    (generateTestData s d r).length = d := by
  unfold generateTestData
  simp

theorem metricValue_cons_notPos {m : Metric} {r : HealthDataPoint} {s : String}
    (hf : metricField m r = some s) (hp : metricParse m s = none) :
    jsGt0 (metricValue m r) = false := by
  unfold metricValue
  rw [hf]
  by_cases hs : s = ""
  · subst hs
    simp [jsOrZero, metricParse_zero, jsGt0]
  · simp only [jsOrZero, if_neg hs, hp]
    rfl

theorem eligible_cons_notPos {m : Metric} {r : HealthDataPoint}
    (h : jsGt0 (metricValue m r) = false) (l : List HealthDataPoint) :
    eligibleValues m (r :: l) = eligibleValues m l := by
  unfold eligibleValues
  simp [List.filter_cons, h]

theorem isDataEmpty_cons_notPos {m : Metric} {r : HealthDataPoint}
    (h : jsGt0 (metricValue m r) = false) (l : List HealthDataPoint) :
    isDataEmpty (r :: l) m = isDataEmpty l m := by
  unfold isDataEmpty
  cases l with
  | nil => simp [h]
  | cons b t => simp [h]

/-! ## Claim theorems -/

/-- Claim C1, counterexample: a raw record whose date string `"not-a-date"`
cannot be parsed into a calendar date is nonetheless appended to storage
by the ingestion operation, which answers 200 (success) — not an
`InvalidRecord` failure, and the stored collection does change. -/
theorem c1_counterexample :
    parseDate "not-a-date" = none ∧
    routePOST (some []) ⟨"not-a-date", none, none, none⟩ =
      ([⟨"not-a-date", none, none, none⟩], 200) ∧
    ([⟨"not-a-date", none, none, none⟩] : List HealthDataPoint) ≠ [] := by
  refine ⟨by decide, rfl, by decide⟩

/-- Claim C1, amended: the ingestion operation performs no date
validation at all — every decoded record, including one whose date
string cannot be parsed, is appended unchanged to the stored collection
and the operation reports success (HTTP 200). -/
theorem c1_ingestion_no_validation :
    ∀ (storage : Option (List HealthDataPoint)) (r : HealthDataPoint),
      parseDate r.date = none →
      routePOST storage r = (storage.getD [] ++ [r], 200) :=
  fun _ _ _ => rfl

/-- Witness for the amended C1 at the concrete record of Scenario 4. -/
theorem c1_witness :
    parseDate "not-a-date" = none ∧
    routePOST (some []) ⟨"not-a-date", none, none, none⟩ =
      ((some ([] : List HealthDataPoint)).getD [] ++
        [⟨"not-a-date", none, none, none⟩], 200) :=
  ⟨by decide,
    c1_ingestion_no_validation (some []) ⟨"not-a-date", none, none, none⟩ (by decide)⟩

/-- Claim C2: the retrieval operation is claimed to return the stored
set and leave it unchanged; the code's `GET` instead calls `gen()`
first, which rewrites the data file with 30 freshly generated test
records, so the stored collection after any read is the generated set —
in particular reading an empty store leaves 30 records behind, and a
previously stored record is gone. -/
theorem c2_get_overwrites_storage :
    (∀ (storage : Option (List HealthDataPoint)) (rand : ℕ → ℚ),
        (routeGET storage rand).storage = gen rand ∧
        (routeGET storage rand).body = gen rand ∧
        (routeGET storage rand).storage.length = 30) ∧
    (routeGET (some []) (fun _ => 0)).storage ≠ [] ∧
    ⟨"2024-05-05", some "123", none, none⟩ ∉
      (routeGET (some [⟨"2024-05-05", some "123", none, none⟩])
        (fun _ => (0 : ℚ))).storage.take 0 := by
  refine ⟨fun storage rand => ⟨rfl, rfl, ?_⟩, ?_, by simp⟩
  · show (gen rand).length = 30
    exact generateTestData_length _ _ _
  · intro h
    have h30 : (routeGET (some []) (fun _ => (0 : ℚ))).storage.length = 30 := by
      show (gen (fun _ => (0 : ℚ))).length = 30
      exact generateTestData_length _ _ _
    rw [h] at h30
    simp at h30

/-- Claim C3: for a bounded window selector the Window Filter returns
exactly the records whose parsed date is on or after the computed
cutoff (membership iff date ≥ cutoff; records with a smaller date, or
no parseable date, are excluded), the cutoffs being now − 7 days,
calendar-aware month subtraction for 1/3/6 months, and calendar year
subtraction for 1 year; the unbounded selector returns the collection
unfiltered. -/
theorem c3_window_filter :
    (∀ now : ℤ,
      cutoffDate now "7D" = some (now - 7 * dayMs) ∧
      cutoffDate now "1M" = some (subMonthsMs now 1) ∧
      cutoffDate now "3M" = some (subMonthsMs now 3) ∧
      cutoffDate now "6M" = some (subMonthsMs now 6) ∧
      cutoffDate now "1Y" = some (subYearMs now)) ∧
    (∀ (l : List HealthDataPoint) (now : ℤ) (tp : String) (c : ℤ),
      cutoffDate now tp = some c →
        filteredData l now tp = l.filter (fun r => jsDateGE (recordMs r) c) ∧
        (∀ r, r ∈ filteredData l now tp ↔
          r ∈ l ∧ ∃ t, recordMs r = some t ∧ c ≤ t)) ∧
    (∀ (l : List HealthDataPoint) (now : ℤ), filteredData l now "ALL" = l) := by
  refine ⟨fun now => ⟨rfl, rfl, rfl, rfl, rfl⟩, ?_, ?_⟩
  · intro l now tp c h
    exact ⟨filteredData_bounded l now tp c h,
      fun r => mem_filteredData_iff l now tp c r h⟩
  · intro l now
    unfold filteredData
    by_cases hl : l.length = 0
    · rw [if_pos hl, List.length_eq_zero.mp hl]
    · rw [if_neg hl]
      rfl

/-- Witness for C3 at Scenario 5: now = 2025-03-15T12:00, window 7D;
the 2025-03-01 record is dropped, the 2025-03-10 record kept. -/
theorem c3_witness :
    cutoffDate 1742040000000 "7D" = some 1741435200000 ∧
    filteredData [⟨"2025-03-01", none, none, none⟩, ⟨"2025-03-10", none, none, none⟩]
        1742040000000 "7D" =
      ([⟨"2025-03-01", none, none, none⟩, ⟨"2025-03-10", none, none, none⟩].filter
        (fun r => jsDateGE (recordMs r) 1741435200000)) ∧
    filteredData [⟨"2025-03-01", none, none, none⟩, ⟨"2025-03-10", none, none, none⟩]
        1742040000000 "7D" = [⟨"2025-03-10", none, none, none⟩] :=
  ⟨by decide,
    (c3_window_filter.2.1 _ 1742040000000 "7D" 1741435200000 (by decide)).1,
    by decide⟩

/-- Claim C4: the eligible set of the Summary Aggregator is exactly the
present, strictly positive parsed metric values; when it is empty (the
no-data test holds precisely then) all three summary cards render the
no-data indicator instead of a numeric zero, and when it is non-empty
the reported average is the arithmetic mean of the eligible values,
rounded per the metric's declared presentation policy. -/
theorem c4_summary_average :
    ∀ (filtered : List HealthDataPoint) (m : Metric),
      (isDataEmpty filtered m = true ↔ eligibleValues m filtered = []) ∧
      (eligibleValues m filtered = [] →
        displayedAverage filtered m = none ∧
        displayedMin filtered m = none ∧
        displayedMax filtered m = none) ∧
      (eligibleValues m filtered ≠ [] →
        displayedAverage filtered m =
          some (some (roundPolicy m
            ((eligibleQ m filtered).sum / ((eligibleQ m filtered).length : ℚ))))) := by
  intro l m
  refine ⟨isDataEmpty_iff l m, ?_, ?_⟩
  · intro h
    have hd : isDataEmpty l m = true := (isDataEmpty_iff l m).mpr h
    exact ⟨by simp [displayedAverage, hd], by simp [displayedMin, hd],
      by simp [displayedMax, hd]⟩
  · intro h
    have hd : ¬ (isDataEmpty l m = true) := fun hc => h ((isDataEmpty_iff l m).mp hc)
    unfold displayedAverage
    rw [if_neg hd, average_eq l m h]

/-- Witness for C4: Scenario 1's steps average is the rounded mean of
the two eligible values, and the empty collection reports no data. -/
theorem c4_witness :
    eligibleValues .steps [⟨"2025-01-01", some "5000", none, none⟩,
      ⟨"2025-01-02", some "7000", none, none⟩] ≠ [] ∧
    displayedAverage [⟨"2025-01-01", some "5000", none, none⟩,
        ⟨"2025-01-02", some "7000", none, none⟩] .steps =
      some (some (roundPolicy .steps
        ((eligibleQ .steps [⟨"2025-01-01", some "5000", none, none⟩,
            ⟨"2025-01-02", some "7000", none, none⟩]).sum /
          ((eligibleQ .steps [⟨"2025-01-01", some "5000", none, none⟩,
            ⟨"2025-01-02", some "7000", none, none⟩]).length : ℚ)))) ∧
    displayedAverage [] .weight = none ∧
    displayedMin [] .weight = none ∧
    displayedMax [] .weight = none :=
  ⟨by decide,
    (c4_summary_average [⟨"2025-01-01", some "5000", none, none⟩,
      ⟨"2025-01-02", some "7000", none, none⟩] .steps).2.2 (by decide),
    (c4_summary_average [] .weight).2.1 rfl⟩

/-- Claim C5, counterexample: a record whose steps field is present but
holds the non-numeric string `"abc"` gets the series value `NaN`
(`parseInt("abc")`), not the numeric value 0 — visible both in the
per-record projection and in the emitted chart series. -/
theorem c5_counterexample :
    metricValue .steps ⟨"2025-01-01", some "abc", none, none⟩ = none ∧
    chartData [⟨"2025-01-01", some "abc", none, none⟩] .steps =
      some (some ⟨["1月1"], [none]⟩) ∧
    (none : JsNum) ≠ some 0 :=
  ⟨by decide, by decide, by decide⟩

/-- Claim C5, amended: the Series Builder emits the parsed numeric value
of the selected metric field; an absent field or an empty string falls
back to `"0"` and yields 0, but a present, non-empty, unparseable
string yields `NaN` — not 0. -/
theorem c5_series_value_policy :
    ∀ (m : Metric) (r : HealthDataPoint),
      metricParse m "0" = some 0 ∧
      (metricField m r = none → metricValue m r = some 0) ∧
      (metricField m r = some "" → metricValue m r = some 0) ∧
      (∀ s, metricField m r = some s → s ≠ "" →
        metricValue m r = metricParse m s) := by
  intro m r
  refine ⟨metricParse_zero m, ?_, ?_, ?_⟩
  · intro h
    unfold metricValue
    rw [h]
    exact metricParse_zero m
  · intro h
    unfold metricValue
    rw [h]
    simp only [jsOrZero, if_pos rfl]
    exact metricParse_zero m
  · intro s h hs
    unfold metricValue
    rw [h]
    simp only [jsOrZero, if_neg hs]

/-- Witness for the amended C5: Scenario 2's second record has no
weight and yields 0; a present non-numeric steps string yields `NaN`. -/
theorem c5_witness :
    metricField .weight ⟨"2025-01-02", none, none, none⟩ = none ∧
    metricValue .weight ⟨"2025-01-02", none, none, none⟩ = some 0 ∧
    metricValue .steps ⟨"2025-01-01", some "abc", none, none⟩ =
      metricParse .steps "abc" :=
  ⟨rfl,
    (c5_series_value_policy .weight ⟨"2025-01-02", none, none, none⟩).2.1 rfl,
    (c5_series_value_policy .steps ⟨"2025-01-01", some "abc", none, none⟩).2.2.2
      "abc" rfl (by decide)⟩

/-- Claim C6: on a filtered set whose dates all parse, the Series
Builder's sort is ascending in the date key, stable (records with equal
dates keep their original relative order: filtering the output by any
date key returns those records in input order), and a permutation of
its input — the input collection itself is a fresh copy (`[...]`) and
the pure model never mutates it. -/
theorem c6_sorted_stable :
    ∀ (l : List HealthDataPoint),
      (∀ r ∈ l, (recordMs r).isSome) →
      List.Pairwise (fun a b => keyD a ≤ keyD b) (sortRecords l) ∧
      (∀ k : ℤ, (sortRecords l).filter (fun r => decide (recordMs r = some k)) =
        l.filter (fun r => decide (recordMs r = some k))) ∧
      (sortRecords l).Perm l :=
  fun l h => ⟨sortRecords_pairwise l h, sortRecords_stable l h, sortRecords_perm l⟩

/-- Witness for C6: two same-date records keep their original order
behind the earlier-dated third record. -/
theorem c6_witness :
    List.Pairwise (fun a b => keyD a ≤ keyD b)
      (sortRecords [⟨"2025-01-02", none, none, none⟩,
        ⟨"2025-01-01", some "1", none, none⟩,
        ⟨"2025-01-01", some "2", none, none⟩]) ∧
    (sortRecords [⟨"2025-01-02", none, none, none⟩,
        ⟨"2025-01-01", some "1", none, none⟩,
        ⟨"2025-01-01", some "2", none, none⟩]).filter
      (fun r => decide (recordMs r = some 1735689600000)) =
    ([⟨"2025-01-02", none, none, none⟩,
        ⟨"2025-01-01", some "1", none, none⟩,
        ⟨"2025-01-01", some "2", none, none⟩].filter
      (fun r => decide (recordMs r = some 1735689600000))) ∧
    (sortRecords [⟨"2025-01-02", none, none, none⟩,
        ⟨"2025-01-01", some "1", none, none⟩,
        ⟨"2025-01-01", some "2", none, none⟩]).Perm
      [⟨"2025-01-02", none, none, none⟩,
        ⟨"2025-01-01", some "1", none, none⟩,
        ⟨"2025-01-01", some "2", none, none⟩] :=
  ⟨(c6_sorted_stable _ (by decide)).1,
    (c6_sorted_stable _ (by decide)).2.1 1735689600000,
    (c6_sorted_stable _ (by decide)).2.2⟩

/-- Claim C7, counterexample: the weight summary minimum is reported at
raw precision — a single record with weight `"70.25"` yields the
displayed minimum 70.25, which does not carry exactly one decimal place
(it is no integer multiple of one tenth). -/
theorem c7_counterexample :
    displayedMin [⟨"2025-01-01", none, some "70.25", none⟩] .weight =
      some (some ((281 : ℚ) / 4)) ∧
    ¬ ∃ k : ℤ, ((281 : ℚ) / 4) = (k : ℚ) / 10 := by
  constructor
  · simp [displayedMin, isDataEmpty, getMinMaxValues, eligibleValues, metricValue,
      metricParse, metricField, jsOrZero, jsParseFloat, readSign, readNat, readDigits,
      readFrac, digitVal, isJsWs, List.dropWhile, jsGt0, jsMinList]
    norm_num
  · rintro ⟨k, hk⟩
    rw [div_eq_div_iff (by norm_num) (by norm_num)] at hk
    have h2 : (2810 : ℚ) = (k : ℚ) * 4 := by linarith
    have h3 : (2810 : ℤ) = k * 4 := by exact_mod_cast h2
    omega

/-- Claim C7, amended: the displayed averages obey the rounding policy
(whole units for steps and heart rate, one decimal place for weight),
and the steps min/max are whole numbers because `parseInt` only yields
integers; the weight and heart-rate min/max, however, are reported at
raw parsed precision (see the counterexample). -/
theorem c7_rounding_policy :
    ∀ filtered : List HealthDataPoint,
      (∀ q : ℚ, displayedAverage filtered .steps = some (some q) →
        ∃ k : ℤ, q = (k : ℚ)) ∧
      (∀ q : ℚ, displayedAverage filtered .heartRate = some (some q) →
        ∃ k : ℤ, q = (k : ℚ)) ∧
      (∀ q : ℚ, displayedAverage filtered .weight = some (some q) →
        ∃ k : ℤ, q = (k : ℚ) / 10) ∧
      (∀ q : ℚ, displayedMin filtered .steps = some (some q) →
        ∃ k : ℤ, q = (k : ℚ)) ∧
      (∀ q : ℚ, displayedMax filtered .steps = some (some q) →
        ∃ k : ℤ, q = (k : ℚ)) := by
  intro l
  have havg : ∀ (m : Metric) (q : ℚ), displayedAverage l m = some (some q) →
      getMetricInfoAverage l m = some q := by
    intro m q h
    unfold displayedAverage at h
    by_cases hd : isDataEmpty l m = true
    · rw [if_pos hd] at h
      exact absurd h (by simp)
    · rw [if_neg hd] at h
      exact Option.some_inj.mp h
  have hmin : ∀ (m : Metric) (q : ℚ), displayedMin l m = some (some q) →
      (getMinMaxValues l m).1 = some q := by
    intro m q h
    unfold displayedMin at h
    by_cases hd : isDataEmpty l m = true
    · rw [if_pos hd] at h
      exact absurd h (by simp)
    · rw [if_neg hd] at h
      exact Option.some_inj.mp h
  have hmax : ∀ (m : Metric) (q : ℚ), displayedMax l m = some (some q) →
      (getMinMaxValues l m).2 = some q := by
    intro m q h
    unfold displayedMax at h
    by_cases hd : isDataEmpty l m = true
    · rw [if_pos hd] at h
      exact absurd h (by simp)
    · rw [if_neg hd] at h
      exact Option.some_inj.mp h
  refine ⟨?_, ?_, ?_, ?_, ?_⟩
  · intro q h
    have h2 := havg .steps q h
    unfold getMetricInfoAverage at h2
    by_cases hl : l.length = 0
    · rw [if_pos hl] at h2
      exact ⟨0, by simpa using (Option.some_inj.mp h2).symm⟩
    · rw [if_neg hl] at h2
      exact jsRound_int h2
  · intro q h
    have h2 := havg .heartRate q h
    unfold getMetricInfoAverage at h2
    by_cases hl : l.length = 0
    · rw [if_pos hl] at h2
      exact ⟨0, by simpa using (Option.some_inj.mp h2).symm⟩
    · rw [if_neg hl] at h2
      simp only [] at h2
      by_cases hv : (eligibleValues .heartRate l).length ≠ 0
      · rw [if_pos hv] at h2
        exact jsRound_int h2
      · rw [if_neg hv] at h2
        exact ⟨0, by simpa using (Option.some_inj.mp h2).symm⟩
  · intro q h
    have h2 := havg .weight q h
    unfold getMetricInfoAverage at h2
    by_cases hl : l.length = 0
    · rw [if_pos hl] at h2
      exact ⟨0, by simpa using (Option.some_inj.mp h2).symm⟩
    · rw [if_neg hl] at h2
      simp only [] at h2
      by_cases hv : (eligibleValues .weight l).length ≠ 0
      · rw [if_pos hv] at h2
        exact jsToFixed1_tenth h2
      · rw [if_neg hv] at h2
        exact ⟨0, by simpa using (Option.some_inj.mp h2).symm⟩
  · intro q h
    have h2 := hmin .steps q h
    unfold getMinMaxValues at h2
    by_cases hl : l.length = 0
    · rw [if_pos hl] at h2
      exact ⟨0, by simpa using (Option.some_inj.mp h2).symm⟩
    · rw [if_neg hl] at h2
      simp only [] at h2
      by_cases hv : (eligibleValues .steps l).length ≠ 0
      · rw [if_pos hv] at h2
        obtain ⟨k, hk⟩ := jsMinList_int (eligible_steps_int l)
          (fun hc => hv (by rw [hc]; rfl))
        rw [hk] at h2
        exact ⟨k, (Option.some_inj.mp h2).symm⟩
      · rw [if_neg hv] at h2
        exact ⟨0, by simpa using (Option.some_inj.mp h2).symm⟩
  · intro q h
    have h2 := hmax .steps q h
    unfold getMinMaxValues at h2
    by_cases hl : l.length = 0
    · rw [if_pos hl] at h2
      exact ⟨0, by simpa using (Option.some_inj.mp h2).symm⟩
    · rw [if_neg hl] at h2
      simp only [] at h2
      by_cases hv : (eligibleValues .steps l).length ≠ 0
      · rw [if_pos hv] at h2
        obtain ⟨k, hk⟩ := jsMaxList_int (eligible_steps_int l)
          (fun hc => hv (by rw [hc]; rfl))
        rw [hk] at h2
        exact ⟨k, (Option.some_inj.mp h2).symm⟩
      · rw [if_neg hv] at h2
        exact ⟨0, by simpa using (Option.some_inj.mp h2).symm⟩

/-- Witness for the amended C7: Scenario 1's steps average 6000 is a
whole number. -/
theorem c7_witness :
    displayedAverage [⟨"2025-01-01", some "5000", none, none⟩,
        ⟨"2025-01-02", some "7000", none, none⟩] .steps = some (some 6000) ∧
    ∃ k : ℤ, (6000 : ℚ) = (k : ℚ) := by
  have h : displayedAverage [⟨"2025-01-01", some "5000", none, none⟩,
      ⟨"2025-01-02", some "7000", none, none⟩] .steps = some (some 6000) := by
    simp [displayedAverage, isDataEmpty, getMetricInfoAverage, eligibleValues,
      metricValue, metricParse, metricField, jsOrZero, jsParseInt, readSign, readNat,
      readDigits, digitVal, isJsWs, List.dropWhile, jsGt0, jsSum, jsAdd, jsDiv, jsRound]
    norm_num [Int.floor_eq_iff]
  exact ⟨h, (c7_rounding_policy [⟨"2025-01-01", some "5000", none, none⟩,
    ⟨"2025-01-02", some "7000", none, none⟩]).1 6000 h⟩

/-- Claim C8, counterexample: under the unbounded (`ALL`) selector a
record with an unparseable date is NOT skipped — the filter passes it
through — and the Series Builder then aborts on it (date-fns `format`
throws on the invalid date), so the derivation fails instead of
producing output for the remaining records. -/
theorem c8_counterexample :
    filteredData [⟨"2025-03-01", none, none, none⟩, ⟨"not-a-date", none, none, none⟩]
        0 "ALL" =
      [⟨"2025-03-01", none, none, none⟩, ⟨"not-a-date", none, none, none⟩] ∧
    dashboardChart [⟨"2025-03-01", none, none, none⟩, ⟨"not-a-date", none, none, none⟩]
        .steps = none :=
  ⟨by decide, by decide⟩

/-- Claim C8, amended: under every bounded window selector a record
whose date does not parse is excluded by the Window Filter (every
record that survives has a parseable date), and the Series Builder then
always produces output on the filtered set; only the unbounded selector
passes malformed records through to a failing derivation. -/
theorem c8_bounded_window_skips :
    ∀ (l : List HealthDataPoint) (now : ℤ) (tp : String) (c : ℤ) (m : Metric),
      cutoffDate now tp = some c →
      (∀ r ∈ filteredData l now tp, (parseDate r.date).isSome) ∧
      (∀ r ∈ l, parseDate r.date = none → r ∉ filteredData l now tp) ∧
      (dashboardChart (filteredData l now tp) m).isSome = true := by
  intro l now tp c m h
  have hv := filteredData_valid l now tp c h
  have hp : ∀ r ∈ filteredData l now tp, (parseDate r.date).isSome := by
    intro r hr
    have h2 := hv r hr
    rwa [recordMs_isSome_iff] at h2
  refine ⟨hp, ?_, ?_⟩
  · intro r _ hnone hmem
    have h2 := hp r hmem
    rw [hnone] at h2
    simp at h2
  · obtain ⟨out, hout, -, -⟩ := chartData_total _ m hp
    simp [hout]

/-- Witness for the amended C8: the malformed record of the C8
counterexample is excluded under the 7-day window and the chart
derivation on the filtered set succeeds. -/
theorem c8_witness :
    cutoffDate 1742040000000 "7D" = some 1741435200000 ∧
    ⟨"not-a-date", none, none, none⟩ ∉
      filteredData [⟨"2025-03-10", none, none, none⟩, ⟨"not-a-date", none, none, none⟩]
        1742040000000 "7D" ∧
    (dashboardChart (filteredData
        [⟨"2025-03-10", none, none, none⟩, ⟨"not-a-date", none, none, none⟩]
        1742040000000 "7D") .steps).isSome = true :=
  ⟨by decide,
    (c8_bounded_window_skips [⟨"2025-03-10", none, none, none⟩,
        ⟨"not-a-date", none, none, none⟩] 1742040000000 "7D" 1741435200000 .steps
      (by decide)).2.1 ⟨"not-a-date", none, none, none⟩ (by decide) (by decide),
    (c8_bounded_window_skips [⟨"2025-03-10", none, none, none⟩,
        ⟨"not-a-date", none, none, none⟩] 1742040000000 "7D" 1741435200000 .steps
      (by decide)).2.2⟩

/-- Claim C9, counterexample: a filtered set can contain a record whose
date does not parse (the unbounded selector passes it through), and on
such a set the Series Builder fails (thrown `RangeError` in the label
map) instead of producing label/value sequences. -/
theorem c9_counterexample :
    filteredData [⟨"not-a-date", none, none, none⟩] 0 "ALL" =
      [⟨"not-a-date", none, none, none⟩] ∧
    dashboardChart [⟨"not-a-date", none, none, none⟩] .steps = none :=
  ⟨by decide, by decide⟩

/-- Claim C9, amended: on every filtered set whose record dates all
parse, the Series Builder produces an output whose label and value
sequences each have the length of the set; in particular the empty set
yields the empty payload (after the component's `||` fallback for the
`null` chart). -/
theorem c9_series_lengths :
    (∀ (l : List HealthDataPoint) (m : Metric),
      (∀ r ∈ l, (parseDate r.date).isSome) →
      ∃ out, dashboardChart l m = some out ∧
        out.labels.length = l.length ∧ out.values.length = l.length) ∧
    (∀ m : Metric, dashboardChart [] m = some ⟨[], []⟩) :=
  ⟨fun l m h => chartData_total l m h, fun _ => rfl⟩

/-- Witness for the amended C9 at Scenario 1's two-record collection. -/
theorem c9_witness :
    (dashboardChart [⟨"2025-01-01", some "5000", none, none⟩,
        ⟨"2025-01-02", some "7000", none, none⟩] .steps).map
      (fun o => (o.labels.length, o.values.length)) = some (2, 2) := by
  obtain ⟨out, h1, h2, h3⟩ := c9_series_lengths.1
    [⟨"2025-01-01", some "5000", none, none⟩,
      ⟨"2025-01-02", some "7000", none, none⟩] .steps (by decide)
  rw [h1]
  simp [h2, h3]

/-- Claim C10: a record whose selected metric field is present but
parses to `NaN` fails the strict `v > 0` eligibility filter, so it
leaves the eligible set — and hence the displayed average, minimum and
maximum — exactly as without it, and on its own it yields the no-data
summary state. -/
theorem c10_nan_never_contributes :
    ∀ (m : Metric) (r : HealthDataPoint) (l : List HealthDataPoint) (s : String),
      metricField m r = some s → metricParse m s = none →
      eligibleValues m (r :: l) = eligibleValues m l ∧
      displayedAverage (r :: l) m = displayedAverage l m ∧
      displayedMin (r :: l) m = displayedMin l m ∧
      displayedMax (r :: l) m = displayedMax l m ∧
      isDataEmpty [r] m = true ∧
      displayedAverage [r] m = none ∧
      displayedMin [r] m = none ∧
      displayedMax [r] m = none := by
  intro m r l s hf hp
  have hgt : jsGt0 (metricValue m r) = false := metricValue_cons_notPos hf hp
  have helig : eligibleValues m (r :: l) = eligibleValues m l :=
    eligible_cons_notPos hgt l
  have hde : isDataEmpty (r :: l) m = isDataEmpty l m := isDataEmpty_cons_notPos hgt l
  have hsingle : isDataEmpty [r] m = true := by
    unfold isDataEmpty
    simp [hgt]
  have havgc : getMetricInfoAverage (r :: l) m = getMetricInfoAverage l m ∨
      isDataEmpty l m = true := by
    by_cases hl : l.length = 0
    · right
      rw [List.length_eq_zero.mp hl]
      rfl
    · left
      unfold getMetricInfoAverage
      rw [if_neg hl, if_neg (by simp : ¬ ((r :: l).length = 0)), helig]
  have hmmc : getMinMaxValues (r :: l) m = getMinMaxValues l m ∨
      isDataEmpty l m = true := by
    by_cases hl : l.length = 0
    · right
      rw [List.length_eq_zero.mp hl]
      rfl
    · left
      unfold getMinMaxValues
      rw [if_neg hl, if_neg (by simp : ¬ ((r :: l).length = 0)), helig]
  refine ⟨helig, ?_, ?_, ?_, hsingle, ?_, ?_, ?_⟩
  · by_cases hd : isDataEmpty l m = true
    · simp [displayedAverage, hd, hde]
    · rcases havgc with hc | hc
      · simp [displayedAverage, hde, hc]
      · exact absurd hc hd
  · by_cases hd : isDataEmpty l m = true
    · simp [displayedMin, hd, hde]
    · rcases hmmc with hc | hc
      · simp [displayedMin, hde, hc]
      · exact absurd hc hd
  · by_cases hd : isDataEmpty l m = true
    · simp [displayedMax, hd, hde]
    · rcases hmmc with hc | hc
      · simp [displayedMax, hde, hc]
      · exact absurd hc hd
  · simp [displayedAverage, hsingle]
  · simp [displayedMin, hsingle]
  · simp [displayedMax, hsingle]

/-- Witness for C10: a lone record with non-numeric steps `"abc"`
contributes nothing and reports no data. -/
theorem c10_witness :
    metricField .steps ⟨"2025-01-01", some "abc", none, none⟩ = some "abc" ∧
    metricParse .steps "abc" = none ∧
    eligibleValues .steps [⟨"2025-01-01", some "abc", none, none⟩,
        ⟨"2025-01-02", some "7000", none, none⟩] =
      eligibleValues .steps [⟨"2025-01-02", some "7000", none, none⟩] ∧
    displayedAverage [⟨"2025-01-01", some "abc", none, none⟩] .steps = none :=
  ⟨rfl, by decide,
    (c10_nan_never_contributes .steps ⟨"2025-01-01", some "abc", none, none⟩
      [⟨"2025-01-02", some "7000", none, none⟩] "abc" rfl (by decide)).1,
    (c10_nan_never_contributes .steps ⟨"2025-01-01", some "abc", none, none⟩
      [] "abc" rfl (by decide)).2.2.2.2.2.1⟩
